import Mathlib

/-!
Verification of the pair-images-aug repository.

The development shallowly embeds the two components of the repository:

* `dataset_aug.py` — the paired geometric augmentation (`process_image_pair`,
  `process_images` and their helpers);
* `lineart_util.py` / `convert_source_to_sketch.py` — the XDoG sketch filter
  (`scribble_xdog`, `resize_image_with_pad`, `convert_pil_to_sketch`).

Images are modelled as a width, a height and a total pixel function.  Library
primitives whose content is irreducibly floating-point (PIL rotation,
cv2 resampling, Gaussian blur) are parameters of the embedding
(`AugPrims`, `SketchPrims`); everything the repository itself computes is
translated directly.  Python floats are modelled as rationals, Python ints as
`Int`/`Nat` (with explicit `% 256` where numpy uint8 arithmetic wraps), and
fallible Python code (exceptions) as `Except String`.

Randomness: the Python code draws from the global `random` generator.  The
embedding threads an explicit stream state `RandState`; each call of
`random.uniform` / `random.choice` / `random.randint` consumes one value of
the corresponding stream.  `random.uniform a b` (with `a ≤ b`) is modelled by
clamping the next stream value into `[a, b]`, and `random.randint 0 m` by
reducing the next stream value modulo `m + 1`; both are surjective onto the
set of outcomes of the Python call, and `random.randint` fails on an empty
range exactly as in Python.
-/

/-- An RGB pixel value: one natural number per 8-bit channel. -/
abbrev Color := Nat × Nat × Nat

/-- An image: a pixel grid with a total content function.  Coordinates outside
`width × height` are junk (PIL never reads them); operations that PIL defines
on out-of-range coordinates (crop padding) handle the bounds explicitly. -/
structure Img where
  width : Nat
  height : Nat
  pixel : Nat → Nat → Color

/-- PIL `Image.crop((l, t, r, b))`: the result has size `(r−l) × (b−t)` and
pixels outside the source are filled with black, as in PIL. -/
def Img.crop (img : Img) (l t r b : ℤ) : Img where
  width := (r - l).toNat
  height := (b - t).toNat
  pixel := fun x y =>
    let sx := l + (x : ℤ)
    let sy := t + (y : ℤ)
    if 0 ≤ sx ∧ sx < (img.width : ℤ) ∧ 0 ≤ sy ∧ sy < (img.height : ℤ) then
      img.pixel sx.toNat sy.toNat
    else (0, 0, 0)

/-- PIL `Image.new("RGB", (w, h), c)`. -/
def Img.new (w h : Nat) (c : Color) : Img :=
  ⟨w, h, fun _ _ => c⟩

/-- PIL `canvas.paste(img, (px, py))`: overlays `img` on `canvas`, clipped to
the canvas extent. -/
def Img.paste (canvas img : Img) (px py : ℤ) : Img where
  width := canvas.width
  height := canvas.height
  pixel := fun x y =>
    let rx := (x : ℤ) - px
    let ry := (y : ℤ) - py
    if 0 ≤ rx ∧ rx < (img.width : ℤ) ∧ 0 ≤ ry ∧ ry < (img.height : ℤ) then
      img.pixel rx.toNat ry.toNat
    else canvas.pixel x y

/-- PIL `ImageOps.mirror`: horizontal flip. -/
def Img.mirror (img : Img) : Img where
  width := img.width
  height := img.height
  pixel := fun x y => img.pixel (img.width - 1 - x) y

/-- PIL `Image.resize((w, h))`.  The fast path (identical size) returns the
image unchanged, exactly as PIL does.  A requested dimension below 1 and an
empty source box raise `ValueError` in PIL, modelled as errors.  The content of
a genuine resample is floating-point (bicubic); it is modelled by
nearest-neighbour sampling, which no theorem below depends on beyond its
dimensions and its preservation of constant images. -/
def Img.resize (img : Img) (w h : Nat) : Except String Img :=
  if img.width = w ∧ img.height = h then .ok img
  else if w < 1 ∨ h < 1 then .error "height and width must be greater than 0"
  else if img.width = 0 ∨ img.height = 0 then .error "box cannot be empty"
  else .ok { width := w, height := h,
             pixel := fun x y => img.pixel (x * img.width / w) (y * img.height / h) }

/-- PIL `Image.getdata()`: the pixels in row-major order. -/
def Img.getdata (img : Img) : List Color :=
  (List.range img.height).flatMap fun y =>
    (List.range img.width).map fun x => img.pixel x y

/-- Python `int(x)` on a float: truncation toward zero. -/
def pyInt (q : ℚ) : ℤ :=
  if 0 ≤ q then ⌊q⌋ else -⌊-q⌋

/-- Numpy `np.round`: round half to even. -/
def npRound (q : ℚ) : ℤ :=
  if q - ⌊q⌋ < 1/2 then ⌊q⌋
  else if 1/2 < q - ⌊q⌋ then ⌊q⌋ + 1
  else if 2 ∣ ⌊q⌋ then ⌊q⌋ else ⌊q⌋ + 1

/-- Python `a // b` on ints: floor division, raising `ZeroDivisionError` on a
zero divisor exactly as Python does. -/
def pyFloorDiv (a b : ℤ) : Except String ℤ :=
  if b = 0 then .error "integer division or modulo by zero"
  else .ok (Int.fdiv a b)

/-- The state of the ambient random generator, as three typed streams with
read positions.  Each sampling call consumes one value of its stream. -/
structure RandState where
  fs : Nat → ℚ
  bs : Nat → Bool
  ns : Nat → Nat
  fi : Nat
  bi : Nat
  ni : Nat

/-- Python `random.uniform a b` for `a ≤ b`: the next float-stream value,
clamped into `[a, b]` (surjectively onto the outcomes of the Python call). -/
def pyUniform (a b : ℚ) (r : RandState) : ℚ × RandState :=
  (max a (min (r.fs r.fi) b), { r with fi := r.fi + 1 })

/-- Python `random.choice([True, False])`. -/
def pyChoiceBool (r : RandState) : Bool × RandState :=
  (r.bs r.bi, { r with bi := r.bi + 1 })

/-- Python `random.randint lo hi`: uniform on `[lo, hi]`, raising
`ValueError` when the range is empty, exactly as Python does. -/
def pyRandint (lo hi : ℤ) (r : RandState) : Except String (ℤ × RandState) :=
  if hi < lo then .error "empty range for randrange"
  else .ok (lo + (r.ns r.ni : ℤ) % (hi - lo + 1), { r with ni := r.ni + 1 })

/-! ## Embedding of `dataset_aug.py` -/

/-- Occurrences of a color in a list (the count kept by `collections.Counter`). -/
def countColor (l : List Color) (c : Color) : Nat :=
  (l.filter fun d => d = c).length

/-- The distinct colors of a list in order of first occurrence (the insertion
order of the `Counter` dictionary). -/
def firstOccs (l : List Color) : List Color :=
  l.foldl (fun acc c => if c ∈ acc then acc else acc ++ [c]) []

/-- Python `Counter(l).most_common(1)[0][0]`: a color of maximal count;
`sorted` being stable, ties go to the first-encountered color, so the result
is the first color (in first-occurrence order) whose count is not exceeded by
a later one. -/
def mostCommon (l : List Color) : Option Color :=
  match firstOccs l with
  | [] => none
  | c0 :: rest =>
    some (rest.foldl (fun b c => if countColor l c > countColor l b then c else b) c0)

/-- Channel-wise sum of all pixels (what `ImageStat.Stat` sums). -/
def colorSum (img : Img) : Nat × Nat × Nat :=
  img.getdata.foldl (fun s c => (s.1 + c.1, s.2.1 + c.2.1, s.2.2 + c.2.2)) (0, 0, 0)

/-- Embedding of `get_average_color`: `int()` of each channel mean.  On a
zero-area image `ImageStat` divides by a zero pixel count, which raises. -/
def get_average_color (image : Img) : Except String Color :=
  let n := image.width * image.height
  if n = 0 then .error "division by zero in ImageStat mean"
  else
    let s := colorSum image
    .ok (s.1 / n, s.2.1 / n, s.2.2 / n)

/-- Python `xs[0]`-style extraction: the value when present, an `IndexError`
otherwise. -/
def option_to_except {α : Type} (o : Option α) (msg : String) : Except String α :=
  match o with
  | some a => .ok a
  | none => .error msg

/-- Embedding of `get_edge_mode_color`: the most frequent pixel value over the
four `edge_width`-wide border strips (left, right, top, bottom, concatenated
in that order).  `most_common(1)[0]` on an empty list raises. -/
def get_edge_mode_color (img : Img) (edge_width : Nat := 10) : Except String Color :=
  let left := img.crop 0 0 (edge_width : ℤ) (img.height : ℤ)
  let right := img.crop ((img.width : ℤ) - edge_width) 0 (img.width : ℤ) (img.height : ℤ)
  let top := img.crop 0 0 (img.width : ℤ) (edge_width : ℤ)
  let bottom := img.crop 0 ((img.height : ℤ) - edge_width) (img.width : ℤ) (img.height : ℤ)
  let colors := left.getdata ++ right.getdata ++ top.getdata ++ bottom.getdata
  option_to_except (mostCommon colors) "most common of an empty sequence"

/-- The library primitive the embedding is parametric in: PIL
`Image.rotate(angle, expand=True, fillcolor)`, whose output extent and
resampled content are floating-point trigonometry. -/
structure AugPrims where
  rotateContent : Img → ℚ → Color → Img

/-- Embedding of `rotate_image`. -/
def rotate_image (P : AugPrims) (image : Img) (angle : ℚ) (fill_color : Color) : Img :=
  P.rotateContent image angle fill_color

/-- Embedding of `crop_square`. -/
def crop_square (cropped_rect_image : Img) (left top crop_size : ℤ) : Img :=
  cropped_rect_image.crop left top (left + crop_size) (top + crop_size)

/-- Embedding of `apply_random_flip`. -/
def apply_random_flip (image : Img) (is_horizontal : Bool) : Img :=
  if is_horizontal then image.mirror else image

/-- Lines 72–86 of `process_image_pair`: fill-color selection for one role
(`if edge: ... elif avg: ... else white`). -/
def select_fill_color (is_edge_mode_fill is_avg_color_fill : Bool) (img : Img) :
    Except String Color :=
  if is_edge_mode_fill then get_edge_mode_color img 10
  else if is_avg_color_fill then get_average_color img
  else .ok (255, 255, 255)

/-- Lines 92–108 of `process_image_pair`, for one image: center the image on a
square canvas sized to its longer dimension, filled with its fill color. -/
def expand_to_square (base : Img) (fill : Color) : Img :=
  let long_side := max base.width base.height
  let canvas := Img.new long_side long_side fill
  canvas.paste base (((long_side - base.width) / 2 : Nat) : ℤ)
    (((long_side - base.height) / 2 : Nat) : ℤ)

/-- Lines 127–132 of `process_image_pair`, for one image: a fill-colored
canvas of the base size scaled by `canvas_scale`, with the base pasted at
`int((scaled - base) / 2)` on each axis. -/
def center_on_canvas (base : Img) (canvas_scale : ℚ) (fill : Color) : Img :=
  let sw := (pyInt ((base.width : ℚ) * canvas_scale)).toNat
  let sh := (pyInt ((base.height : ℚ) * canvas_scale)).toNat
  let canvas := Img.new sw sh fill
  canvas.paste base (pyInt (((sw : ℚ) - (base.width : ℚ)) / 2))
    (pyInt (((sh : ℚ) - (base.height : ℚ)) / 2))

/-- Everything `process_image_pair` computes through line 151: fill colors,
the base images after optional expansion / rotation / flip, the scaled
canvases, the crop sizes, and the four crop offsets. -/
structure GeomResult where
  sourceFill : Color
  targetFill : Color
  baseSource : Img
  baseTarget : Img
  scaledSource : Img
  scaledTarget : Img
  canvasScale : ℚ
  cropSourceSize : ℤ
  cropTargetSize : ℤ
  leftSource : ℤ
  topSource : ℤ
  leftTarget : ℤ
  topTarget : ℤ
  rngAfter : RandState

/-- Lines 145–151 of `process_image_pair`: draw the source crop offset inside
the scaled source canvas and rescale it into the target by the original
dimension ratios.  The remaining arguments only populate the geometry
record. -/
def crop_offsets (r3 : RandState) (scaled : Img × Img)
    (crop_source_size crop_target_size : ℤ)
    (orig_source_width orig_source_height orig_target_width orig_target_height : Nat)
    (base_source base_target : Img) (source_fill_color target_fill_color : Color)
    (canvas_scale : ℚ) : Except String GeomResult := do
  let ls ← pyRandint 0 ((scaled.1.width : ℤ) - crop_source_size) r3
  let ts ← pyRandint 0 ((scaled.1.height : ℤ) - crop_source_size) ls.2
  let left_target ← pyFloorDiv (ls.1 * (orig_target_width : ℤ)) (orig_source_width : ℤ)
  let top_target ← pyFloorDiv (ts.1 * (orig_target_height : ℤ)) (orig_source_height : ℤ)
  .ok { sourceFill := source_fill_color, targetFill := target_fill_color,
        baseSource := base_source, baseTarget := base_target,
        scaledSource := scaled.1, scaledTarget := scaled.2,
        canvasScale := canvas_scale,
        cropSourceSize := crop_source_size, cropTargetSize := crop_target_size,
        leftSource := ls.1, topSource := ts.1,
        leftTarget := left_target, topTarget := top_target,
        rngAfter := ts.2 }

/-- Lines 124–151 of `process_image_pair`: sample the shared scale, grow the
canvases when `canvas_scale > 1`, compute both square crop sizes, then draw
and rescale the crop offsets (`crop_offsets`).  The base images handed in are
the ones produced by the expansion / rotation / flip stages; the four `orig_*`
arguments are the dimensions of the raw inputs read at lines 69–70. -/
def aug_crop_geometry (r2 : RandState) (base_source base_target : Img)
    (source_fill_color target_fill_color : Color) (min_scale max_scale : ℚ)
    (orig_source_width orig_source_height orig_target_width orig_target_height : Nat) :
    Except String GeomResult :=
  let u2 := pyUniform min_scale max_scale r2
  let canvas_scale : ℚ := 1 / u2.1
  let scaled : Img × Img :=
    if canvas_scale > 1 then
      (center_on_canvas base_source canvas_scale source_fill_color,
       center_on_canvas base_target canvas_scale target_fill_color)
    else (base_source, base_target)
  let base_source_max_square_size := min base_source.height base_source.width
  let crop_source_size : ℤ := pyInt ((base_source_max_square_size : ℚ) * canvas_scale)
  let base_target_max_square_size := min base_target.height base_target.width
  let crop_target_size : ℤ := pyInt ((base_target_max_square_size : ℚ) * canvas_scale)
  crop_offsets u2.2 scaled crop_source_size crop_target_size orig_source_width
    orig_source_height orig_target_width orig_target_height base_source base_target
    source_fill_color target_fill_color canvas_scale

/-- Lines 69–151 of `process_image_pair`.  Note: exactly as in the source, the
rotation branch rotates `source_image` / `target_image` (the raw inputs, not
the bases produced by the long-side expansion) and overwrites the bases with
the result. -/
def aug_geometry (P : AugPrims) (r0 : RandState) (source_image target_image : Img)
    (is_flip : Bool) (rotation_range : ℚ) (min_scale max_scale : ℚ)
    (source_is_avg_color_fill source_is_edge_mode_fill : Bool)
    (target_is_avg_color_fill target_is_edge_mode_fill : Bool)
    (expand_to_long_side : Bool) : Except String GeomResult := do
  let orig_source_width := source_image.width
  let orig_source_height := source_image.height
  let orig_target_width := target_image.width
  let orig_target_height := target_image.height
  let source_fill_color ←
    select_fill_color source_is_edge_mode_fill source_is_avg_color_fill source_image
  let target_fill_color ←
    select_fill_color target_is_edge_mode_fill target_is_avg_color_fill target_image
  let bases0 : Img × Img :=
    if expand_to_long_side then
      (expand_to_square source_image source_fill_color,
       expand_to_square target_image target_fill_color)
    else (source_image, target_image)
  let rot : Img × Img × RandState :=
    if rotation_range > 0 then
      let u := pyUniform (-rotation_range) rotation_range r0
      (rotate_image P source_image u.1 source_fill_color,
       rotate_image P target_image u.1 target_fill_color, u.2)
    else (bases0.1, bases0.2, r0)
  let flipped : Img × Img × RandState :=
    if is_flip then
      let c := pyChoiceBool rot.2.2
      (apply_random_flip rot.1 c.1, apply_random_flip rot.2.1 c.1, c.2)
    else rot
  aug_crop_geometry flipped.2.2 flipped.1 flipped.2.1 source_fill_color target_fill_color
    min_scale max_scale orig_source_width orig_source_height orig_target_width
    orig_target_height

/-- A full run of `process_image_pair`, keeping the geometry record alongside
the two final images. -/
structure AugResult where
  geom : GeomResult
  finalSource : Img
  finalTarget : Img

/-- Embedding of `process_image_pair` (lines 54–156), instrumented to return
the geometry record with the final images. -/
def process_image_pair_core (P : AugPrims) (r0 : RandState)
    (source_image target_image : Img) (output_size : Nat × Nat)
    (is_flip : Bool) (rotation_range : ℚ) (min_scale max_scale : ℚ)
    (source_is_avg_color_fill source_is_edge_mode_fill : Bool)
    (target_is_avg_color_fill target_is_edge_mode_fill : Bool)
    (expand_to_long_side : Bool) : Except String AugResult := do
  let g ← aug_geometry P r0 source_image target_image is_flip rotation_range
      min_scale max_scale source_is_avg_color_fill source_is_edge_mode_fill
      target_is_avg_color_fill target_is_edge_mode_fill expand_to_long_side
  let final_source ←
    (crop_square g.scaledSource g.leftSource g.topSource g.cropSourceSize).resize
      output_size.1 output_size.2
  let final_target ←
    (crop_square g.scaledTarget g.leftTarget g.topTarget g.cropTargetSize).resize
      output_size.1 output_size.2
  .ok { geom := g, finalSource := final_source, finalTarget := final_target }

/-- The pair returned by `process_image_pair`. -/
def process_image_pair (P : AugPrims) (r0 : RandState)
    (source_image target_image : Img) (output_size : Nat × Nat)
    (is_flip : Bool) (rotation_range : ℚ) (min_scale max_scale : ℚ)
    (source_is_avg_color_fill source_is_edge_mode_fill : Bool)
    (target_is_avg_color_fill target_is_edge_mode_fill : Bool)
    (expand_to_long_side : Bool) : Except String (Img × Img) :=
  (process_image_pair_core P r0 source_image target_image output_size is_flip
      rotation_range min_scale max_scale source_is_avg_color_fill
      source_is_edge_mode_fill target_is_avg_color_fill target_is_edge_mode_fill
      expand_to_long_side).map fun res => (res.finalSource, res.finalTarget)

/-- The loop of `process_images`: one draw per copy, threading the random
state; a raised exception aborts the whole call, as in Python. -/
def process_images_aux (P : AugPrims) (source_img target_img : Img)
    (output_size : Nat × Nat) (is_flip : Bool)
    (rotation_range min_scale max_scale : ℚ)
    (source_is_avg_color_fill source_is_edge_mode_fill : Bool)
    (target_is_avg_color_fill target_is_edge_mode_fill : Bool)
    (expand_to_long_side : Bool) :
    Nat → RandState → Except String (List Img × List Img × RandState)
  | 0, r => .ok ([], [], r)
  | n + 1, r => do
    let res ← process_image_pair_core P r source_img target_img output_size is_flip
        rotation_range min_scale max_scale source_is_avg_color_fill
        source_is_edge_mode_fill target_is_avg_color_fill target_is_edge_mode_fill
        expand_to_long_side
    let rest ← process_images_aux P source_img target_img output_size is_flip
        rotation_range min_scale max_scale source_is_avg_color_fill
        source_is_edge_mode_fill target_is_avg_color_fill target_is_edge_mode_fill
        expand_to_long_side n res.geom.rngAfter
    .ok (res.finalSource :: rest.1, res.finalTarget :: rest.2.1, rest.2.2)

/-- Embedding of `process_images` (lines 158–196): `num_copies` augmented
copies of the pair. -/
def process_images (P : AugPrims) (r0 : RandState) (source_img target_img : Img)
    (num_copies : Nat) (output_size : Nat × Nat) (is_flip : Bool)
    (rotation_range min_scale max_scale : ℚ)
    (source_is_avg_color_fill source_is_edge_mode_fill : Bool)
    (target_is_avg_color_fill target_is_edge_mode_fill : Bool)
    (expand_to_long_side : Bool) : Except String (List Img × List Img) :=
  (process_images_aux P source_img target_img output_size is_flip rotation_range
      min_scale max_scale source_is_avg_color_fill source_is_edge_mode_fill
      target_is_avg_color_fill target_is_edge_mode_fill expand_to_long_side
      num_copies r0).map fun t => (t.1, t.2.1)

/-! ## Embedding of `lineart_util.py` and `convert_source_to_sketch.py` -/

/-- A float image, the result of `astype(np.float32)`: one rational per
channel. -/
structure QImg where
  width : Nat
  height : Nat
  pixel : Nat → Nat → ℚ × ℚ × ℚ

/-- Channel-wise cast of a uint8 image to float. -/
def Img.toQ (img : Img) : QImg :=
  ⟨img.width, img.height, fun x y =>
    (((img.pixel x y).1 : ℚ), ((img.pixel x y).2.1 : ℚ), ((img.pixel x y).2.2 : ℚ))⟩

/-- The two library primitives the sketch embedding is parametric in:
`cv2.resize` resampled content (the Bool distinguishes `INTER_CUBIC` from
`INTER_AREA`) and `cv2.GaussianBlur` content at a given sigma — both
floating-point convolutions.  Output dimensions are imposed structurally, as
the libraries guarantee them. -/
structure SketchPrims where
  cvResizeContent : Img → Nat → Nat → Bool → Nat → Nat → Color
  gaussBlurContent : QImg → ℚ → Nat → Nat → ℚ × ℚ × ℚ

/-- Embedding of `pad64`: `int(np.ceil(float(x) / 64.0) * 64 - x)`. -/
def pad64 (x : Nat) : Nat :=
  (⌈(x : ℚ) / 64⌉ * 64 - (x : ℤ)).toNat

/-- Embedding of `resize_image_with_pad`: scale so the short side equals
`resolution` (cubic when upscaling, area when downscaling), then pad the
bottom/right edges (edge-replicated) to multiples of 64.  Returns the padded
image together with `(H_target, W_target)`, which is what the `remove_pad`
closure crops back to.  `HWC3` is the identity here because the model's images
are always 3-channel.  A zero-area input makes Python's
`float(resolution) / float(min(H_raw, W_raw))` raise; theorems about this
function therefore assume positive dimensions. -/
def resize_image_with_pad (P : SketchPrims) (input_image : Img) (resolution : Nat) :
    Img × Nat × Nat :=
  let H_raw := input_image.height
  let W_raw := input_image.width
  let k : ℚ := (resolution : ℚ) / ((min H_raw W_raw : Nat) : ℚ)
  let interpolation := decide (k > 1)
  let H_target := (npRound ((H_raw : ℚ) * k)).toNat
  let W_target := (npRound ((W_raw : ℚ) * k)).toNat
  let resized : Img :=
    ⟨W_target, H_target, P.cvResizeContent input_image W_target H_target interpolation⟩
  let H_pad := pad64 H_target
  let W_pad := pad64 W_target
  let img_padded : Img := ⟨W_target + W_pad, H_target + H_pad,
    fun x y => resized.pixel (min x (W_target - 1)) (min y (H_target - 1))⟩
  (img_padded, H_target, W_target)

/-- Numpy `.clip(0, 255).astype(np.uint8)` of a float value (the cast of a
clipped non-negative float truncates). -/
def clipToUint8 (q : ℚ) : Nat :=
  (⌊min (max q 0) 255⌋).toNat

/-- Line 63 of `lineart_util.py`, per pixel: the uint8 DoG intensity
`(255 - np.min(g2 - g1, axis=2)).clip(0, 255).astype(np.uint8)`. -/
def xdog_dog (P : SketchPrims) (img : Img) (x y : Nat) : Nat :=
  let f := img.toQ
  let g1 := P.gaussBlurContent f (1/2) x y
  let g2 := P.gaussBlurContent f 5 x y
  let d := min (g2.1 - g1.1) (min (g2.2.1 - g1.2.1) (g2.2.2 - g1.2.2))
  clipToUint8 (255 - d)

/-- Line 65 of `lineart_util.py`, per pixel:
`result[2 * (255 - dog) > thr_a] = 255` on the `np.zeros_like` array.  Both
`255 - dog` and the doubling are computed on uint8 arrays (a Python int scalar
combines with a uint8 array at uint8), so the doubling wraps modulo 256. -/
def xdog_threshold (thr_a dogv : Nat) : Nat :=
  if 2 * (255 - dogv) % 256 > thr_a then 255 else 0

/-- Embedding of `scribble_xdog` (the returned PIL image; the second component
of the Python return value is the constant `True`).  The `np.zeros_like` /
boolean-mask write and the `remove_pad` crop are fused into the per-pixel
definition: `remove_pad` keeps the top-left `W_target × H_target` corner, so
output coordinates index the padded array unchanged. -/
def scribble_xdog (P : SketchPrims) (img : Img) (res thr_a : Nat) : Img :=
  let rp := resize_image_with_pad P img res
  { width := rp.2.2, height := rp.2.1,
    pixel := fun x y =>
      let v := xdog_threshold thr_a (xdog_dog P rp.1 x y)
      (v, v, v) }

/-- The working resolution `convert_pil_to_sketch` passes to `scribble_xdog`
(line 38 of `convert_source_to_sketch.py`). -/
def convert_res : Nat := 2048

/-- The `thr_a` threshold `convert_pil_to_sketch` passes to `scribble_xdog`
(line 38 of `convert_source_to_sketch.py`). -/
def convert_thr_a : Nat := 16

/-- `cv2.cvtColor(..., cv2.COLOR_RGB2BGR)`: swap the first and third channel. -/
def rgb2bgr (img : Img) : Img :=
  { width := img.width, height := img.height,
    pixel := fun x y => ((img.pixel x y).2.2, (img.pixel x y).2.1, (img.pixel x y).1) }

/-- Numpy `255 - array` on uint8 pixels (all values are at most 255, so no
wrapping occurs). -/
def invert255 (img : Img) : Img :=
  { width := img.width, height := img.height,
    pixel := fun x y =>
      (255 - (img.pixel x y).1, 255 - (img.pixel x y).2.1, 255 - (img.pixel x y).2.2) }

/-- Embedding of `convert_pil_to_sketch` (lines 26–43): run `scribble_xdog` at
resolution 2048 with `thr_a = 16`, resize back to the input size, convert
RGB→BGR and invert.  `np.array` / `Image.fromarray` are identities of the
model. -/
def convert_pil_to_sketch (P : SketchPrims) (image : Img) : Except String Img := do
  let input_width := image.width
  let input_height := image.height
  let processed := scribble_xdog P image convert_res convert_thr_a
  let resized ← processed.resize input_width input_height
  .ok (invert255 (rgb2bgr resized))

/-! ## Definitions taken from the specification text (for refinement claims),
and concrete instances used by witnesses -/

/-- Modelled from the spec: the center square crop of an image — the square of
side `min(width, height)` centered on the image (offset `(dim − side) / 2` on
each axis). -/
def center_square_crop (img : Img) : Img :=
  let m := min img.width img.height
  img.crop (((img.width - m) / 2 : Nat) : ℤ) (((img.height - m) / 2 : Nat) : ℤ)
    ((((img.width - m) / 2 + m : Nat)) : ℤ) ((((img.height - m) / 2 + m : Nat)) : ℤ)

/-- Modelled from the spec: the binarization rule as the specification states
it — the entry threshold is "doubled internally" before thresholding, so a
pixel is white exactly where `2 × (255 − dog)` (exact arithmetic) exceeds the
doubled threshold. -/
def spec_binarize_doubled (thr_a dogv : Nat) : Nat :=
  if 2 * (255 - dogv) > 2 * thr_a then 255 else 0

/-- Single-image augmentation pipeline with explicitly shared draw parameters
(`theta`, `horiz`, `canvas_scale`), following the pair function's per-image
data flow: optional long-side expansion, optional rotation of the raw image,
optional flip, optional canvas growth, square crop, resize. -/
def single_image_aug (P : AugPrims) (raw : Img) (fill : Color) (expand : Bool)
    (rotation_range theta : ℚ) (is_flip horiz : Bool) (canvas_scale : ℚ)
    (left top crop_size : ℤ) (ow oh : Nat) : Except String Img :=
  let b0 := if expand then expand_to_square raw fill else raw
  let b1 := if rotation_range > 0 then rotate_image P raw theta fill else b0
  let b2 := if is_flip then apply_random_flip b1 horiz else b1
  let scaled := if canvas_scale > 1 then center_on_canvas b2 canvas_scale fill else b2
  (crop_square scaled left top crop_size).resize ow oh

/-- A rotation primitive returning its input unchanged; used to instantiate
runs whose rotation stage is disabled or irrelevant. -/
def idRotate : AugPrims :=
  ⟨fun img _ _ => img⟩

/-- A deterministic random stream: every float draw is 0, every boolean draw
is `true`, every integer draw is 0. -/
def streamZero : RandState :=
  ⟨fun _ => 0, fun _ => true, fun _ => 0, 0, 0, 0⟩

/-- A 3×1 test image whose pixels are distinguished by their x coordinate. -/
def img31 : Img :=
  ⟨3, 1, fun x _ => (x, 0, 0)⟩

/-- A 2×2 test image. -/
def img22 : Img :=
  ⟨2, 2, fun x y => (x, y, 7)⟩

/-- Clamped nearest-neighbour resampling content: a concrete `cv2.resize`
instance (it preserves constant images, the only property theorems assume). -/
def clampResize : Img → Nat → Nat → Bool → Nat → Nat → Color :=
  fun img _ _ _ x y => img.pixel (min x (img.width - 1)) (min y (img.height - 1))

/-- Identity blur content: a concrete `cv2.GaussianBlur` instance (it
preserves constant images, the only property theorems assume). -/
def idBlur : QImg → ℚ → Nat → Nat → ℚ × ℚ × ℚ :=
  fun f _ x y => f.pixel x y

/-- Concrete sketch primitives for witnesses. -/
def samplePrims : SketchPrims :=
  ⟨clampResize, idBlur⟩

/-! ## Basic lemmas about the embedding -/

theorem except_bind_ok {ε α β : Type} (a : α) (f : α → Except ε β) :
    (bind (Except.ok a) f : Except ε β) = f a := rfl

theorem except_bind_err {ε α β : Type} (e : ε) (f : α → Except ε β) :
    (bind (Except.error e) f : Except ε β) = Except.error e := rfl

theorem pyInt_of_nonneg {q : ℚ} (h : 0 ≤ q) : pyInt q = ⌊q⌋ := if_pos h

theorem pyInt_nonneg {q : ℚ} (h : 0 ≤ q) : 0 ≤ pyInt q := by
  rw [pyInt_of_nonneg h]; exact Int.floor_nonneg.mpr h

theorem pyInt_mono {a b : ℚ} (ha : 0 ≤ a) (hab : a ≤ b) : pyInt a ≤ pyInt b := by
  rw [pyInt_of_nonneg ha, pyInt_of_nonneg (ha.trans hab)]
  exact Int.floor_le_floor hab

theorem pyInt_natCast (n : Nat) : pyInt (n : ℚ) = (n : ℤ) := by
  rw [pyInt_of_nonneg (by positivity)]; exact Int.floor_natCast n

theorem pyInt_le_natCast_of_le {q : ℚ} {n : Nat} (hq : 0 ≤ q) (h : q ≤ (n : ℚ)) :
    pyInt q ≤ (n : ℤ) := by
  rw [pyInt_of_nonneg hq]
  exact (Int.floor_le_floor h).trans (le_of_eq (Int.floor_natCast n))

theorem crop_square_width (img : Img) (l t s : ℤ) :
    (crop_square img l t s).width = s.toNat := by
  simp [crop_square, Img.crop]

theorem crop_square_height (img : Img) (l t s : ℤ) :
    (crop_square img l t s).height = s.toNat := by
  simp [crop_square, Img.crop]

theorem resize_ok_dims {img : Img} {w h : Nat} {r : Img}
    (hr : img.resize w h = .ok r) : r.width = w ∧ r.height = h := by
  unfold Img.resize at hr
  split at hr
  · next hc =>
    injection hr with h2
    subst h2
    exact ⟨hc.1, hc.2⟩
  · split at hr
    · exact Except.noConfusion hr
    · split at hr
      · exact Except.noConfusion hr
      · injection hr with h2
        subst h2
        exact ⟨rfl, rfl⟩

theorem getdata_ne_nil {img : Img} (hw : 0 < img.width) (hh : 0 < img.height) :
    img.getdata ≠ [] := by
  unfold Img.getdata
  intro hcon
  rw [List.flatMap_eq_nil_iff] at hcon
  have h0 := hcon 0 (List.mem_range.mpr hh)
  rw [List.map_eq_nil_iff, List.range_eq_nil] at h0
  omega

theorem foldl_firstOccs_ne_nil (l : List Color) :
    ∀ acc : List Color, acc ≠ [] →
      l.foldl (fun acc c => if c ∈ acc then acc else acc ++ [c]) acc ≠ [] := by
  induction l with
  | nil => intro acc h; simpa
  | cons hd tl ih =>
    intro acc h
    simp only [List.foldl_cons]
    split
    · exact ih acc h
    · exact ih (acc ++ [hd]) (by simp)

theorem firstOccs_ne_nil {l : List Color} (h : l ≠ []) : firstOccs l ≠ [] := by
  unfold firstOccs
  cases l with
  | nil => exact absurd rfl h
  | cons hd tl =>
    simp only [List.foldl_cons, List.not_mem_nil, if_neg, List.nil_append]
    exact foldl_firstOccs_ne_nil tl [hd] (by simp)

theorem mostCommon_isSome {l : List Color} (h : l ≠ []) : ∃ c, mostCommon l = some c := by
  unfold mostCommon
  cases hfo : firstOccs l with
  | nil => exact absurd hfo (firstOccs_ne_nil h)
  | cons c0 rest => exact ⟨_, rfl⟩

theorem get_average_color_ok {img : Img} (hw : 0 < img.width) (hh : 0 < img.height) :
    ∃ c, get_average_color img = .ok c := by
  unfold get_average_color
  rw [if_neg (Nat.mul_ne_zero (Nat.pos_iff_ne_zero.mp hw) (Nat.pos_iff_ne_zero.mp hh))]
  exact ⟨_, rfl⟩

theorem option_to_except_ok {α : Type} {o : Option α} {msg : String}
    (h : ∃ a, o = some a) : ∃ a, option_to_except o msg = .ok a := by
  obtain ⟨a, ha⟩ := h
  exact ⟨a, by rw [ha]; rfl⟩

theorem get_edge_mode_color_ok {img : Img} (hw : 0 < img.width) (hh : 0 < img.height) :
    ∃ c, get_edge_mode_color img 10 = .ok c := by
  unfold get_edge_mode_color
  apply option_to_except_ok
  apply mostCommon_isSome
  intro hcon
  rw [List.append_eq_nil, List.append_eq_nil, List.append_eq_nil] at hcon
  exact @getdata_ne_nil (img.crop 0 0 ((10 : Nat) : ℤ) (img.height : ℤ))
    (by simp [Img.crop]) (by simpa [Img.crop] using hh) hcon.1.1.1

theorem select_fill_color_ok {img : Img} (hw : 0 < img.width) (hh : 0 < img.height)
    (e a : Bool) : ∃ c, select_fill_color e a img = .ok c := by
  cases e with
  | true => simpa [select_fill_color] using get_edge_mode_color_ok hw hh
  | false =>
    cases a with
    | true => simpa [select_fill_color] using get_average_color_ok hw hh
    | false => exact ⟨_, rfl⟩


theorem pyFloorDiv_ok_inv {a b v : ℤ} (h : pyFloorDiv a b = .ok v) :
    v = Int.fdiv a b ∧ b ≠ 0 := by
  unfold pyFloorDiv at h
  split at h
  · exact Except.noConfusion h
  · next hb =>
    injection h with h2
    exact ⟨h2.symm, hb⟩

theorem except_bind_ok_inv {ε α β : Type} {x : Except ε α} {f : α → Except ε β} {b : β}
    (h : bind x f = Except.ok b) : ∃ a, x = .ok a ∧ f a = .ok b := by
  cases x with
  | error e => rw [except_bind_err] at h; exact Except.noConfusion h
  | ok a =>
    rw [except_bind_ok] at h
    exact ⟨a, rfl, h⟩

/-- Inversion of a successful `process_image_pair_core` run into its geometry
stage and the two final crop-resizes. -/
theorem core_ok_inv {P : AugPrims} {r0 : RandState} {src tgt : Img}
    {osize : Nat × Nat} {f : Bool} {rr mn mx : ℚ} {sa se ta te ex : Bool}
    {res : AugResult}
    (h : process_image_pair_core P r0 src tgt osize f rr mn mx sa se ta te ex = .ok res) :
    aug_geometry P r0 src tgt f rr mn mx sa se ta te ex = .ok res.geom ∧
    (crop_square res.geom.scaledSource res.geom.leftSource res.geom.topSource
        res.geom.cropSourceSize).resize osize.1 osize.2 = .ok res.finalSource ∧
    (crop_square res.geom.scaledTarget res.geom.leftTarget res.geom.topTarget
        res.geom.cropTargetSize).resize osize.1 osize.2 = .ok res.finalTarget := by
  unfold process_image_pair_core at h
  obtain ⟨g, hg, h⟩ := except_bind_ok_inv h
  obtain ⟨s, hs, h⟩ := except_bind_ok_inv h
  obtain ⟨t, ht, h⟩ := except_bind_ok_inv h
  injection h with h2
  subst h2
  exact ⟨hg, hs, ht⟩

/-- Inversion of a successful geometry stage at its two floor divisions: the
target offsets are the source offsets rescaled by the original
target-to-source dimension ratios, and the original source dimensions are the
(necessarily nonzero) divisors. -/
theorem aug_geometry_offsets {P : AugPrims} {r0 : RandState} {src tgt : Img}
    {f : Bool} {rr mn mx : ℚ} {sa se ta te ex : Bool} {g : GeomResult}
    (h : aug_geometry P r0 src tgt f rr mn mx sa se ta te ex = .ok g) :
    g.leftTarget = Int.fdiv (g.leftSource * (tgt.width : ℤ)) (src.width : ℤ) ∧
    g.topTarget = Int.fdiv (g.topSource * (tgt.height : ℤ)) (src.height : ℤ) ∧
    src.width ≠ 0 ∧ src.height ≠ 0 := by
  unfold aug_geometry at h
  obtain ⟨sf, hsf, h⟩ := except_bind_ok_inv h
  obtain ⟨tf, htf, h⟩ := except_bind_ok_inv h
  obtain ⟨ls, hls, h⟩ := except_bind_ok_inv h
  obtain ⟨ts, hts, h⟩ := except_bind_ok_inv h
  obtain ⟨lt, hlt, h⟩ := except_bind_ok_inv h
  obtain ⟨tt, htt, h⟩ := except_bind_ok_inv h
  injection h with h2
  subst h2
  obtain ⟨he1, hb1⟩ := pyFloorDiv_ok_inv hlt
  obtain ⟨he2, hb2⟩ := pyFloorDiv_ok_inv htt
  subst he1
  subst he2
  exact ⟨rfl, rfl, by exact_mod_cast hb1, by exact_mod_cast hb2⟩

theorem except_map_ok_inv {ε α β : Type} {x : Except ε α} {f : α → β} {b : β}
    (h : x.map f = .ok b) : ∃ a, x = .ok a ∧ f a = b := by
  cases x with
  | error e => exact Except.noConfusion h
  | ok a => exact ⟨a, rfl, Except.ok.inj h⟩

/-- C7: the two fill-policy flags of a role are resolved by a fixed priority —
the edge-mode flag (most frequent color of the four 10-pixel border strips)
wins over the average flag (truncated per-channel mean), which wins over the
default white `(255, 255, 255)`; consequently, when the edge-mode flag is set
the value of the average flag has no effect on `process_image_pair`'s
geometry, for either role, so simultaneously-true flags never conflict. -/
theorem c7_fill_policy_priority :
    (∀ img : Img,
      select_fill_color true true img = get_edge_mode_color img 10 ∧
      select_fill_color true false img = get_edge_mode_color img 10 ∧
      select_fill_color false true img = get_average_color img ∧
      select_fill_color false false img = Except.ok (255, 255, 255)) ∧
    (∀ (P : AugPrims) (r0 : RandState) (src tgt : Img) (f : Bool) (rr mn mx : ℚ)
        (sa sa2 ta te ex : Bool),
      aug_geometry P r0 src tgt f rr mn mx sa true ta te ex =
        aug_geometry P r0 src tgt f rr mn mx sa2 true ta te ex) ∧
    (∀ (P : AugPrims) (r0 : RandState) (src tgt : Img) (f : Bool) (rr mn mx : ℚ)
        (sa se ta ta2 ex : Bool),
      aug_geometry P r0 src tgt f rr mn mx sa se ta true ex =
        aug_geometry P r0 src tgt f rr mn mx sa se ta2 true ex) := by
  refine ⟨fun img => ⟨rfl, rfl, rfl, rfl⟩, ?_, ?_⟩
  · intro P r0 src tgt f rr mn mx sa sa2 ta te ex
    simp only [aug_geometry, select_fill_color, if_true]
  · intro P r0 src tgt f rr mn mx sa se ta ta2 ex
    simp only [aug_geometry, select_fill_color, if_true]

/-- C2: for every successful draw, the target crop offset used by
`process_image_pair` equals the source offset rescaled by the ratio of the
original (pre-augmentation) target dimension to the original source dimension
on each axis, with integer floor division:
`left_target = left_source * orig_target_width // orig_source_width` and
`top_target = top_source * orig_target_height // orig_source_height`; so
re-deriving the target offset from the recorded source offset and the original
dimension ratios reproduces exactly the offset the implementation uses. -/
theorem c2_target_offset_roundtrip (P : AugPrims) (r0 : RandState)
    (source_image target_image : Img) (output_size : Nat × Nat) (is_flip : Bool)
    (rotation_range min_scale max_scale : ℚ) (sa se ta te expand : Bool)
    (res : AugResult)
    (h : process_image_pair_core P r0 source_image target_image output_size is_flip
        rotation_range min_scale max_scale sa se ta te expand = .ok res) :
    res.geom.leftTarget =
      Int.fdiv (res.geom.leftSource * (target_image.width : ℤ)) (source_image.width : ℤ) ∧
    res.geom.topTarget =
      Int.fdiv (res.geom.topSource * (target_image.height : ℤ)) (source_image.height : ℤ) := by
  obtain ⟨hg, -, -⟩ := core_ok_inv h
  obtain ⟨h1, h2, -, -⟩ := aug_geometry_offsets hg
  exact ⟨h1, h2⟩

theorem core_ok_dims {P : AugPrims} {r0 : RandState} {src tgt : Img} {n : Nat}
    {f : Bool} {rr mn mx : ℚ} {sa se ta te ex : Bool} {res : AugResult}
    (h : process_image_pair_core P r0 src tgt (n, n) f rr mn mx sa se ta te ex = .ok res) :
    res.finalSource.width = n ∧ res.finalSource.height = n ∧
    res.finalTarget.width = n ∧ res.finalTarget.height = n := by
  obtain ⟨-, hs, ht⟩ := core_ok_inv h
  obtain ⟨a1, a2⟩ := resize_ok_dims hs
  obtain ⟨b1, b2⟩ := resize_ok_dims ht
  exact ⟨a1, a2, b1, b2⟩

theorem process_images_aux_dims {P : AugPrims} {src tgt : Img} {n : Nat}
    {f : Bool} {rr mn mx : ℚ} {sa se ta te ex : Bool} (m : Nat) :
    ∀ (r0 : RandState) (ss ts : List Img) (rfin : RandState),
      process_images_aux P src tgt (n, n) f rr mn mx sa se ta te ex m r0 =
        .ok (ss, ts, rfin) →
      (∀ s ∈ ss, s.width = n ∧ s.height = n) ∧ (∀ t ∈ ts, t.width = n ∧ t.height = n) := by
  induction m with
  | zero =>
    intro r0 ss ts rfin h
    injection h with h2
    injection h2 with e1 h3
    injection h3 with e2 e3
    subst e1
    subst e2
    simp
  | succ k ih =>
    intro r0 ss ts rfin h
    unfold process_images_aux at h
    obtain ⟨res, hres, h⟩ := except_bind_ok_inv h
    obtain ⟨rest, hrest, h⟩ := except_bind_ok_inv h
    injection h with h2
    injection h2 with e1 h3
    injection h3 with e2 e3
    subst e1
    subst e2
    obtain ⟨d1, d2, d3, d4⟩ := core_ok_dims hres
    obtain ⟨ihs, iht⟩ := ih res.geom.rngAfter rest.1 rest.2.1 rest.2.2 hrest
    constructor
    · intro s hs
      rcases List.mem_cons.mp hs with hs | hs
      · subst hs; exact ⟨d1, d2⟩
      · exact ihs s hs
    · intro t htt
      rcases List.mem_cons.mp htt with htt | htt
      · subst htt; exact ⟨d3, d4⟩
      · exact iht t htt

/-- C3: every returned augmented image has width equal to height equal to the
configured output size — both for the single pair returned by a successful
`process_image_pair` and for every element of the two lists returned by a
successful `process_images`. -/
theorem c3_output_size (P : AugPrims) (r0 : RandState) (src tgt : Img) (n : Nat)
    (f : Bool) (rr mn mx : ℚ) (sa se ta te ex : Bool) :
    (∀ s t, process_image_pair P r0 src tgt (n, n) f rr mn mx sa se ta te ex = .ok (s, t) →
      s.width = n ∧ s.height = n ∧ t.width = n ∧ t.height = n) ∧
    (∀ m ss ts,
      process_images P r0 src tgt m (n, n) f rr mn mx sa se ta te ex = .ok (ss, ts) →
      (∀ s ∈ ss, s.width = n ∧ s.height = n) ∧ (∀ t ∈ ts, t.width = n ∧ t.height = n)) := by
  constructor
  · intro s t h
    unfold process_image_pair at h
    obtain ⟨res, hres, h2⟩ := except_map_ok_inv h
    obtain ⟨d1, d2, d3, d4⟩ := core_ok_dims hres
    injection h2 with e1 e2
    subst e1
    subst e2
    exact ⟨d1, d2, d3, d4⟩
  · intro m ss ts h
    unfold process_images at h
    obtain ⟨tr, htr, h2⟩ := except_map_ok_inv h
    injection h2 with e1 e2
    subst e1
    subst e2
    exact process_images_aux_dims m r0 tr.1 tr.2.1 tr.2.2 htr

/-- A concrete successful augmentation draw, shared by several witnesses. -/
theorem sample_core_run :
    ∃ res, process_image_pair_core idRotate streamZero img31 img31 (1, 1) false 0 1 1
      false false false false false = .ok res := by
  simp only [process_image_pair_core, aug_geometry, aug_crop_geometry, crop_offsets,
    select_fill_color,
    pyUniform, pyChoiceBool, pyRandint, pyFloorDiv, pyInt, streamZero, img31, idRotate,
    crop_square, Img.crop, Img.resize, center_on_canvas, apply_random_flip, rotate_image,
    expand_to_square, except_bind_ok, except_bind_err]
  norm_num [except_bind_ok]

/-- A concrete successful batch run, shared by witnesses. -/
theorem sample_images_run :
    ∃ ss ts, process_images idRotate streamZero img31 img31 1 (1, 1) false 0 1 1
      false false false false false = .ok (ss, ts) := by
  unfold process_images
  simp only [process_images_aux, process_image_pair_core, aug_geometry, aug_crop_geometry,
    crop_offsets,
    select_fill_color, pyUniform, pyChoiceBool, pyRandint, pyFloorDiv, pyInt, streamZero,
    img31, idRotate, crop_square, Img.crop, Img.resize, center_on_canvas,
    apply_random_flip, rotate_image, expand_to_square, except_bind_ok, except_bind_err]
  norm_num [except_bind_ok, Except.map]

/-- Witness for C2: the round-trip holds on a concrete successful draw. -/
theorem c2_target_offset_roundtrip_witness :
    ∃ res, process_image_pair_core idRotate streamZero img31 img31 (1, 1) false 0 1 1
        false false false false false = .ok res ∧
      res.geom.leftTarget =
        Int.fdiv (res.geom.leftSource * (img31.width : ℤ)) (img31.width : ℤ) ∧
      res.geom.topTarget =
        Int.fdiv (res.geom.topSource * (img31.height : ℤ)) (img31.height : ℤ) := by
  obtain ⟨res, hres⟩ := sample_core_run
  exact ⟨res, hres, c2_target_offset_roundtrip idRotate streamZero img31 img31 (1, 1)
    false 0 1 1 false false false false false res hres⟩

/-- Witness for C3: the size invariant holds on a concrete successful batch. -/
theorem c3_output_size_witness :
    ∃ ss ts, process_images idRotate streamZero img31 img31 1 (1, 1) false 0 1 1
        false false false false false = .ok (ss, ts) ∧
      (∀ s ∈ ss, s.width = 1 ∧ s.height = 1) ∧
      (∀ t ∈ ts, t.width = 1 ∧ t.height = 1) := by
  obtain ⟨ss, ts, h⟩ := sample_images_run
  exact ⟨ss, ts, h, (c3_output_size idRotate streamZero img31 img31 1 false 0 1 1
    false false false false false).2 1 ss ts h⟩

/-- C4 (bug evidence): whenever a rotation is drawn (`rotation_range > 0`),
`process_image_pair` behaves identically with and without
`expand_to_long_side` — the rotation stage rotates the raw input images and
overwrites the bases, so the square canvases built by the long-side expansion
are discarded rather than rotated. -/
theorem c4_expansion_discarded_by_rotation (P : AugPrims) (r0 : RandState)
    (src tgt : Img) (osize : Nat × Nat) (f : Bool) (rr mn mx : ℚ)
    (sa se ta te : Bool) (hrr : rr > 0) :
    process_image_pair P r0 src tgt osize f rr mn mx sa se ta te true =
      process_image_pair P r0 src tgt osize f rr mn mx sa se ta te false := by
  unfold process_image_pair process_image_pair_core aug_geometry
  simp only [if_pos hrr]

/-- Witness for C4 at a concrete rotation range. -/
theorem c4_expansion_discarded_witness :
    process_image_pair idRotate streamZero img31 img31 (1, 1) false 40 1 1 false false
        false false true =
      process_image_pair idRotate streamZero img31 img31 (1, 1) false 40 1 1 false false
        false false false :=
  c4_expansion_discarded_by_rotation idRotate streamZero img31 img31 (1, 1) false 40 1 1
    false false false false (by norm_num)

theorem pyUniform_mem {a b : ℚ} (hab : a ≤ b) (r : RandState) :
    a ≤ (pyUniform a b r).1 ∧ (pyUniform a b r).1 ≤ b := by
  unfold pyUniform
  exact ⟨le_max_left a _, max_le hab (min_le_right _ _)⟩

theorem pyRandint_ok {lo hi : ℤ} (h : lo ≤ hi) (r : RandState) :
    ∃ v r2, pyRandint lo hi r = .ok (v, r2) ∧ lo ≤ v ∧ v ≤ hi := by
  unfold pyRandint
  rw [if_neg (not_lt.mpr h)]
  have hpos : 0 < hi - lo + 1 := by omega
  have h1 : 0 ≤ (r.ns r.ni : ℤ) % (hi - lo + 1) := Int.emod_nonneg _ (by omega)
  have h2 : (r.ns r.ni : ℤ) % (hi - lo + 1) < hi - lo + 1 := Int.emod_lt_of_pos _ hpos
  exact ⟨_, _, rfl, by omega, by omega⟩

theorem pyInt_min_mul_le_big {m bw : Nat} {cs : ℚ} (hcs : 0 < cs) (hmin : m ≤ bw) :
    pyInt ((m : ℚ) * cs) ≤ ((pyInt ((bw : ℚ) * cs)).toNat : ℤ) := by
  have h1 : pyInt ((m : ℚ) * cs) ≤ pyInt ((bw : ℚ) * cs) := by
    apply pyInt_mono (by positivity)
    apply mul_le_mul_of_nonneg_right _ hcs.le
    exact_mod_cast hmin
  have h2 : 0 ≤ pyInt ((bw : ℚ) * cs) := pyInt_nonneg (by positivity)
  rwa [Int.toNat_of_nonneg h2]

theorem pyInt_min_mul_le_small {m bw : Nat} {cs : ℚ} (hcs0 : 0 ≤ cs) (hcs1 : cs ≤ 1)
    (hmin : m ≤ bw) :
    pyInt ((m : ℚ) * cs) ≤ (bw : ℤ) := by
  apply pyInt_le_natCast_of_le (by positivity)
  calc (m : ℚ) * cs ≤ (m : ℚ) * 1 := mul_le_mul_of_nonneg_left hcs1 (by positivity)
    _ = (m : ℚ) := mul_one _
    _ ≤ (bw : ℚ) := by exact_mod_cast hmin


theorem center_on_canvas_width (b : Img) (cs : ℚ) (fill : Color) :
    (center_on_canvas b cs fill).width = (pyInt ((b.width : ℚ) * cs)).toNat := rfl

theorem center_on_canvas_height (b : Img) (cs : ℚ) (fill : Color) :
    (center_on_canvas b cs fill).height = (pyInt ((b.height : ℚ) * cs)).toNat := rfl

/-- The offset-drawing stage succeeds whenever the crop size fits inside the
scaled source canvas and the original source dimensions are nonzero, and the
drawn offsets keep the whole crop window inside the canvas. -/
theorem crop_offsets_bounds (r3 : RandState) (sc : Img × Img) (css cts : ℤ)
    (osw osh otw oth : Nat) (bs bt : Img) (sf tf : Color) (cs : ℚ)
    (hw : css ≤ (sc.1.width : ℤ)) (hh : css ≤ (sc.1.height : ℤ))
    (hosw : osw ≠ 0) (hosh : osh ≠ 0) :
    ∃ g, crop_offsets r3 sc css cts osw osh otw oth bs bt sf tf cs = .ok g ∧
      g.scaledSource = sc.1 ∧ g.cropSourceSize = css ∧
      0 ≤ g.leftSource ∧ g.leftSource + css ≤ (sc.1.width : ℤ) ∧
      0 ≤ g.topSource ∧ g.topSource + css ≤ (sc.1.height : ℤ) := by
  unfold crop_offsets
  obtain ⟨v1, r4, heq1, hlo1, hhi1⟩ :=
    @pyRandint_ok 0 ((sc.1.width : ℤ) - css) (by omega) r3
  rw [heq1]
  simp only [except_bind_ok]
  obtain ⟨v2, r5, heq2, hlo2, hhi2⟩ :=
    @pyRandint_ok 0 ((sc.1.height : ℤ) - css) (by omega) r4
  rw [heq2]
  simp only [except_bind_ok]
  have hfd1 : pyFloorDiv (v1 * (otw : ℤ)) (osw : ℤ) =
      .ok (Int.fdiv (v1 * (otw : ℤ)) (osw : ℤ)) := by
    unfold pyFloorDiv
    rw [if_neg (by exact_mod_cast hosw)]
  have hfd2 : pyFloorDiv (v2 * (oth : ℤ)) (osh : ℤ) =
      .ok (Int.fdiv (v2 * (oth : ℤ)) (osh : ℤ)) := by
    unfold pyFloorDiv
    rw [if_neg (by exact_mod_cast hosh)]
  rw [hfd1]
  simp only [except_bind_ok]
  rw [hfd2]
  simp only [except_bind_ok]
  refine ⟨_, rfl, rfl, rfl, hlo1, ?_, hlo2, ?_⟩
  · show v1 + css ≤ (sc.1.width : ℤ)
    omega
  · show v2 + css ≤ (sc.1.height : ℤ)
    omega

/-- The whole crop stage always succeeds with an in-bounds source crop window,
for any base images and positive scale range: both in the canvas-growth branch
and in the no-growth branch the crop size is at most the scaled canvas width
and height, so the offset ranges are non-negative and the drawn window lies
inside the canvas. -/
theorem aug_crop_geometry_bounds (r2 : RandState) (bs bt : Img) (sf tf : Color)
    (mn mx : ℚ) (osw osh otw oth : Nat) (hmn : 0 < mn) (hmx : mn ≤ mx)
    (hosw : osw ≠ 0) (hosh : osh ≠ 0) :
    ∃ g, aug_crop_geometry r2 bs bt sf tf mn mx osw osh otw oth = .ok g ∧
      0 ≤ g.cropSourceSize ∧
      g.cropSourceSize ≤ (g.scaledSource.width : ℤ) ∧
      g.cropSourceSize ≤ (g.scaledSource.height : ℤ) ∧
      0 ≤ g.leftSource ∧ g.leftSource + g.cropSourceSize ≤ (g.scaledSource.width : ℤ) ∧
      0 ≤ g.topSource ∧ g.topSource + g.cropSourceSize ≤ (g.scaledSource.height : ℤ) := by
  have hmem := pyUniform_mem hmx r2
  have hspos : 0 < (pyUniform mn mx r2).1 := lt_of_lt_of_le hmn hmem.1
  have hcspos : 0 < 1 / (pyUniform mn mx r2).1 := by positivity
  have h0 : 0 ≤ pyInt (((min bs.height bs.width : Nat) : ℚ) *
      (1 / (pyUniform mn mx r2).1)) := pyInt_nonneg (by positivity)
  have hw : pyInt (((min bs.height bs.width : Nat) : ℚ) * (1 / (pyUniform mn mx r2).1)) ≤
      (((if (1 : ℚ) / (pyUniform mn mx r2).1 > 1 then
          (center_on_canvas bs (1 / (pyUniform mn mx r2).1) sf,
           center_on_canvas bt (1 / (pyUniform mn mx r2).1) tf)
        else (bs, bt)).1.width : ℤ)) := by
    by_cases hgt : (1 : ℚ) / (pyUniform mn mx r2).1 > 1
    · rw [if_pos hgt]
      show pyInt _ ≤
        (((center_on_canvas bs (1 / (pyUniform mn mx r2).1) sf).width : ℤ))
      rw [center_on_canvas_width]
      exact pyInt_min_mul_le_big hcspos (Nat.min_le_right bs.height bs.width)
    · rw [if_neg hgt]
      exact pyInt_min_mul_le_small hcspos.le (not_lt.mp hgt)
        (Nat.min_le_right bs.height bs.width)
  have hh : pyInt (((min bs.height bs.width : Nat) : ℚ) * (1 / (pyUniform mn mx r2).1)) ≤
      (((if (1 : ℚ) / (pyUniform mn mx r2).1 > 1 then
          (center_on_canvas bs (1 / (pyUniform mn mx r2).1) sf,
           center_on_canvas bt (1 / (pyUniform mn mx r2).1) tf)
        else (bs, bt)).1.height : ℤ)) := by
    by_cases hgt : (1 : ℚ) / (pyUniform mn mx r2).1 > 1
    · rw [if_pos hgt]
      show pyInt _ ≤
        (((center_on_canvas bs (1 / (pyUniform mn mx r2).1) sf).height : ℤ))
      rw [center_on_canvas_height]
      exact pyInt_min_mul_le_big hcspos (Nat.min_le_left bs.height bs.width)
    · rw [if_neg hgt]
      exact pyInt_min_mul_le_small hcspos.le (not_lt.mp hgt)
        (Nat.min_le_left bs.height bs.width)
  obtain ⟨g, hg, hgs, hgc, b1, b2, b3, b4⟩ :=
    crop_offsets_bounds (pyUniform mn mx r2).2
      (if (1 : ℚ) / (pyUniform mn mx r2).1 > 1 then
          (center_on_canvas bs (1 / (pyUniform mn mx r2).1) sf,
           center_on_canvas bt (1 / (pyUniform mn mx r2).1) tf)
        else (bs, bt))
      (pyInt (((min bs.height bs.width : Nat) : ℚ) * (1 / (pyUniform mn mx r2).1)))
      (pyInt (((min bt.height bt.width : Nat) : ℚ) * (1 / (pyUniform mn mx r2).1)))
      osw osh otw oth bs bt sf tf (1 / (pyUniform mn mx r2).1) hw hh hosw hosh
  refine ⟨g, ?_, ?_, ?_, ?_, b1, ?_, b3, ?_⟩
  · show aug_crop_geometry r2 bs bt sf tf mn mx osw osh otw oth = .ok g
    unfold aug_crop_geometry
    exact hg
  · rw [hgc]
    exact h0
  · rw [hgc, hgs]
    exact hw
  · rw [hgc, hgs]
    exact hh
  · rw [hgc, hgs]
    exact b2
  · rw [hgc, hgs]
    exact b4

/-- C10: for positive-size inputs and a positive scale range, the geometry
stage of `process_image_pair` always succeeds: the source crop size fits the
scaled canvas on both axes (in the canvas-growth branch and in the no-growth
branch alike), so both offset-sampling ranges are non-negative, the random
offset draw never fails, and the drawn square crop window lies entirely inside
the scaled source canvas. -/
theorem c10_crop_window_in_bounds (P : AugPrims) (r0 : RandState) (src tgt : Img)
    (f : Bool) (rr mn mx : ℚ) (sa se ta te ex : Bool)
    (hsw : 0 < src.width) (hsh : 0 < src.height)
    (htw : 0 < tgt.width) (hth : 0 < tgt.height)
    (hmn : 0 < mn) (hmx : mn ≤ mx) :
    ∃ g, aug_geometry P r0 src tgt f rr mn mx sa se ta te ex = .ok g ∧
      0 ≤ g.cropSourceSize ∧
      g.cropSourceSize ≤ (g.scaledSource.width : ℤ) ∧
      g.cropSourceSize ≤ (g.scaledSource.height : ℤ) ∧
      0 ≤ g.leftSource ∧ g.leftSource + g.cropSourceSize ≤ (g.scaledSource.width : ℤ) ∧
      0 ≤ g.topSource ∧ g.topSource + g.cropSourceSize ≤ (g.scaledSource.height : ℤ) := by
  obtain ⟨sf, hsf⟩ := select_fill_color_ok hsw hsh se sa
  obtain ⟨tf, htf⟩ := select_fill_color_ok htw hth te ta
  unfold aug_geometry
  rw [hsf]
  simp only [except_bind_ok]
  rw [htf]
  simp only [except_bind_ok]
  exact aug_crop_geometry_bounds _ _ _ sf tf mn mx src.width src.height tgt.width
    tgt.height hmn hmx (by omega) (by omega)

/-- Witness for C10 at a concrete input and configuration. -/
theorem c10_crop_window_in_bounds_witness :
    ∃ g, aug_geometry idRotate streamZero img31 img31 false 0 1 1 false false false false
        false = .ok g ∧
      0 ≤ g.cropSourceSize ∧
      g.cropSourceSize ≤ (g.scaledSource.width : ℤ) ∧
      g.cropSourceSize ≤ (g.scaledSource.height : ℤ) ∧
      0 ≤ g.leftSource ∧ g.leftSource + g.cropSourceSize ≤ (g.scaledSource.width : ℤ) ∧
      0 ≤ g.topSource ∧ g.topSource + g.cropSourceSize ≤ (g.scaledSource.height : ℤ) :=
  c10_crop_window_in_bounds idRotate streamZero img31 img31 false 0 1 1 false false
    false false false (by decide) (by decide) (by decide) (by decide) (by norm_num)
    le_rfl

/-- Characterization of a successful crop stage: every recorded field is the
stated function of the stage inputs. -/
theorem aug_crop_geometry_ok_char {r2 : RandState} {bs bt : Img} {sf tf : Color}
    {mn mx : ℚ} {osw osh otw oth : Nat} {g : GeomResult}
    (h : aug_crop_geometry r2 bs bt sf tf mn mx osw osh otw oth = .ok g) :
    g.sourceFill = sf ∧ g.targetFill = tf ∧ g.baseSource = bs ∧ g.baseTarget = bt ∧
    g.canvasScale = 1 / (pyUniform mn mx r2).1 ∧
    (g.scaledSource, g.scaledTarget) =
      (if g.canvasScale > 1 then
        (center_on_canvas bs g.canvasScale sf, center_on_canvas bt g.canvasScale tf)
       else (bs, bt)) ∧
    g.cropSourceSize = pyInt (((min bs.height bs.width : Nat) : ℚ) * g.canvasScale) ∧
    g.cropTargetSize = pyInt (((min bt.height bt.width : Nat) : ℚ) * g.canvasScale) := by
  unfold aug_crop_geometry crop_offsets at h
  obtain ⟨ls, hls, h⟩ := except_bind_ok_inv h
  obtain ⟨ts, hts, h⟩ := except_bind_ok_inv h
  obtain ⟨lt, hlt, h⟩ := except_bind_ok_inv h
  obtain ⟨tt, htt, h⟩ := except_bind_ok_inv h
  injection h with h2
  subst h2
  exact ⟨rfl, rfl, rfl, rfl, rfl, rfl, rfl, rfl⟩

theorem aug_geometry_ok_char {P : AugPrims} {r0 : RandState} {src tgt : Img}
    {f : Bool} {rr mn mx : ℚ} {sa se ta te ex : Bool} {g : GeomResult}
    (h : aug_geometry P r0 src tgt f rr mn mx sa se ta te ex = .ok g) :
    ∃ (theta : ℚ) (horiz : Bool),
      select_fill_color se sa src = .ok g.sourceFill ∧
      select_fill_color te ta tgt = .ok g.targetFill ∧
      (g.baseSource, g.baseTarget) =
        ((if f then
            apply_random_flip
              (if rr > 0 then rotate_image P src theta g.sourceFill
               else if ex then expand_to_square src g.sourceFill else src) horiz
          else
            if rr > 0 then rotate_image P src theta g.sourceFill
            else if ex then expand_to_square src g.sourceFill else src),
         (if f then
            apply_random_flip
              (if rr > 0 then rotate_image P tgt theta g.targetFill
               else if ex then expand_to_square tgt g.targetFill else tgt) horiz
          else
            if rr > 0 then rotate_image P tgt theta g.targetFill
            else if ex then expand_to_square tgt g.targetFill else tgt)) ∧
      (g.scaledSource, g.scaledTarget) =
        (if g.canvasScale > 1 then
          (center_on_canvas g.baseSource g.canvasScale g.sourceFill,
           center_on_canvas g.baseTarget g.canvasScale g.targetFill)
         else (g.baseSource, g.baseTarget)) ∧
      g.cropSourceSize =
        pyInt (((min g.baseSource.height g.baseSource.width : Nat) : ℚ) * g.canvasScale) ∧
      g.cropTargetSize =
        pyInt (((min g.baseTarget.height g.baseTarget.width : Nat) : ℚ) * g.canvasScale) := by
  unfold aug_geometry at h
  obtain ⟨sf, hsf, h⟩ := except_bind_ok_inv h
  obtain ⟨tf, htf, h⟩ := except_bind_ok_inv h
  obtain ⟨e1, e2, e3, e4, e5, e6, e7, e8⟩ := aug_crop_geometry_ok_char h
  subst e1
  subst e2
  refine ⟨(pyUniform (-rr) rr r0).1,
    (pyChoiceBool (if rr > 0 then (pyUniform (-rr) rr r0).2 else r0)).1,
    hsf, htf, ?_, ?_, ?_, ?_⟩
  · rw [e3, e4]
    split_ifs <;> rfl
  · rw [e3, e4]
    exact e6
  · rw [e3]
    exact e7
  · rw [e4]
    exact e8

/-- C1: a successful draw factors into two runs of the same single-image
pipeline sharing one rotation angle `theta`, one horizontal-flip decision
`horiz` and one canvas scale — the pair function applies a single sampled
angle and a single sampled flip boolean to both images, never resampling
between them. -/
theorem c1_shared_rotation_and_flip (P : AugPrims) (r0 : RandState)
    (source_image target_image : Img) (output_size : Nat × Nat) (is_flip : Bool)
    (rotation_range min_scale max_scale : ℚ) (sa se ta te expand : Bool)
    (res : AugResult)
    (h : process_image_pair_core P r0 source_image target_image output_size is_flip
        rotation_range min_scale max_scale sa se ta te expand = .ok res) :
    ∃ (theta : ℚ) (horiz : Bool) (cs : ℚ),
      single_image_aug P source_image res.geom.sourceFill expand rotation_range theta
        is_flip horiz cs res.geom.leftSource res.geom.topSource res.geom.cropSourceSize
        output_size.1 output_size.2 = .ok res.finalSource ∧
      single_image_aug P target_image res.geom.targetFill expand rotation_range theta
        is_flip horiz cs res.geom.leftTarget res.geom.topTarget res.geom.cropTargetSize
        output_size.1 output_size.2 = .ok res.finalTarget := by
  obtain ⟨hg, hs, ht⟩ := core_ok_inv h
  obtain ⟨theta, horiz, hfS, hfT, hbase, hscaled, hcsS, hcsT⟩ := aug_geometry_ok_char hg
  rw [Prod.mk.injEq] at hbase
  refine ⟨theta, horiz, res.geom.canvasScale, ?_, ?_⟩
  · simp only [single_image_aug]
    rw [← hbase.1]
    by_cases hgt : res.geom.canvasScale > 1
    · rw [if_pos hgt]
      rw [if_pos hgt, Prod.mk.injEq] at hscaled
      rw [← hscaled.1]
      exact hs
    · rw [if_neg hgt]
      rw [if_neg hgt, Prod.mk.injEq] at hscaled
      rw [← hscaled.1]
      exact hs
  · simp only [single_image_aug]
    rw [← hbase.2]
    by_cases hgt : res.geom.canvasScale > 1
    · rw [if_pos hgt]
      rw [if_pos hgt, Prod.mk.injEq] at hscaled
      rw [← hscaled.2]
      exact ht
    · rw [if_neg hgt]
      rw [if_neg hgt, Prod.mk.injEq] at hscaled
      rw [← hscaled.2]
      exact ht

/-- Witness for C1 at a concrete successful draw. -/
theorem c1_shared_rotation_and_flip_witness :
    ∃ res, process_image_pair_core idRotate streamZero img31 img31 (1, 1) false 0 1 1
        false false false false false = .ok res ∧
      ∃ (theta : ℚ) (horiz : Bool) (cs : ℚ),
        single_image_aug idRotate img31 res.geom.sourceFill false 0 theta false horiz cs
          res.geom.leftSource res.geom.topSource res.geom.cropSourceSize 1 1 =
          .ok res.finalSource ∧
        single_image_aug idRotate img31 res.geom.targetFill false 0 theta false horiz cs
          res.geom.leftTarget res.geom.topTarget res.geom.cropTargetSize 1 1 =
          .ok res.finalTarget := by
  obtain ⟨res, hres⟩ := sample_core_run
  exact ⟨res, hres, c1_shared_rotation_and_flip idRotate streamZero img31 img31 (1, 1)
    false 0 1 1 false false false false false res hres⟩

theorem pyUniform_const (a : ℚ) (r : RandState) : (pyUniform a a r).1 = a := by
  unfold pyUniform
  exact max_eq_left (min_le_right _ _)

theorem pyRandint_ok_inv {lo hi : ℤ} {r : RandState} {p : ℤ × RandState}
    (h : pyRandint lo hi r = .ok p) : lo ≤ p.1 ∧ p.1 ≤ hi := by
  unfold pyRandint at h
  split at h
  · exact Except.noConfusion h
  · next hge =>
    injection h with h2
    subst h2
    have hpos : 0 < hi - lo + 1 := by omega
    have h1 : 0 ≤ (r.ns r.ni : ℤ) % (hi - lo + 1) := Int.emod_nonneg _ (by omega)
    have h2 : (r.ns r.ni : ℤ) % (hi - lo + 1) < hi - lo + 1 := Int.emod_lt_of_pos _ hpos
    constructor
    · show lo ≤ lo + (r.ns r.ni : ℤ) % (hi - lo + 1)
      omega
    · show lo + (r.ns r.ni : ℤ) % (hi - lo + 1) ≤ hi
      omega

theorem crop_offsets_ok_bounds {r3 : RandState} {sc : Img × Img} {css cts : ℤ}
    {osw osh otw oth : Nat} {bs bt : Img} {sf tf : Color} {cs : ℚ} {g : GeomResult}
    (h : crop_offsets r3 sc css cts osw osh otw oth bs bt sf tf cs = .ok g) :
    0 ≤ g.leftSource ∧ g.leftSource + g.cropSourceSize ≤ (g.scaledSource.width : ℤ) ∧
    0 ≤ g.topSource ∧ g.topSource + g.cropSourceSize ≤ (g.scaledSource.height : ℤ) := by
  unfold crop_offsets at h
  obtain ⟨ls, hls, h⟩ := except_bind_ok_inv h
  obtain ⟨ts, hts, h⟩ := except_bind_ok_inv h
  obtain ⟨lt, hlt, h⟩ := except_bind_ok_inv h
  obtain ⟨tt, htt, h⟩ := except_bind_ok_inv h
  injection h with h2
  subst h2
  obtain ⟨ha1, ha2⟩ := pyRandint_ok_inv hls
  obtain ⟨hb1, hb2⟩ := pyRandint_ok_inv hts
  refine ⟨ha1, ?_, hb1, ?_⟩
  · show ls.1 + css ≤ (sc.1.width : ℤ)
    omega
  · show ts.1 + css ≤ (sc.1.height : ℤ)
    omega

theorem aug_geometry_ok_bounds {P : AugPrims} {r0 : RandState} {src tgt : Img}
    {f : Bool} {rr mn mx : ℚ} {sa se ta te ex : Bool} {g : GeomResult}
    (h : aug_geometry P r0 src tgt f rr mn mx sa se ta te ex = .ok g) :
    0 ≤ g.leftSource ∧ g.leftSource + g.cropSourceSize ≤ (g.scaledSource.width : ℤ) ∧
    0 ≤ g.topSource ∧ g.topSource + g.cropSourceSize ≤ (g.scaledSource.height : ℤ) := by
  unfold aug_geometry at h
  obtain ⟨sf, hsf, h⟩ := except_bind_ok_inv h
  obtain ⟨tf, htf, h⟩ := except_bind_ok_inv h
  unfold aug_crop_geometry at h
  exact crop_offsets_ok_bounds h

theorem aug_geometry_canvasScale {P : AugPrims} {r0 : RandState} {src tgt : Img}
    {f : Bool} {rr mn mx : ℚ} {sa se ta te ex : Bool} {g : GeomResult}
    (h : aug_geometry P r0 src tgt f rr mn mx sa se ta te ex = .ok g) :
    ∃ r2, g.canvasScale = 1 / (pyUniform mn mx r2).1 := by
  unfold aug_geometry at h
  obtain ⟨sf, hsf, h⟩ := except_bind_ok_inv h
  obtain ⟨tf, htf, h⟩ := except_bind_ok_inv h
  exact ⟨_, (aug_crop_geometry_ok_char h).2.2.2.2.1⟩

theorem resize_eq_of_dims {img : Img} {w h : Nat} (hw : img.width = w)
    (hh : img.height = h) : img.resize w h = .ok img := by
  unfold Img.resize
  rw [if_pos ⟨hw, hh⟩]

/-- C5 (amended): with rotation 0, flip disabled, min_scale = max_scale = 1 and
output size equal to the square-crop size, each returned image is the
corresponding input's square crop of side min(width, height) at the drawn
offset, with content unchanged (the final resize is the identity fast path) —
the offset is the randomly sampled one (rescaled for the target), not the
center; it is forced to the center (zero) exactly when the input is square. -/
theorem c5_random_offset_square_crop (P : AugPrims) (r0 : RandState) (src tgt : Img)
    (sa se ta te : Bool) (res : AugResult)
    (h : process_image_pair_core P r0 src tgt
        (min src.height src.width, min src.height src.width) false 0 1 1 sa se ta te
        false = .ok res) :
    res.finalSource = crop_square src res.geom.leftSource res.geom.topSource
      ((min src.height src.width : Nat) : ℤ) ∧
    (∀ x y, x < min src.height src.width → y < min src.height src.width →
      res.finalSource.pixel x y =
        src.pixel (x + res.geom.leftSource.toNat) (y + res.geom.topSource.toNat)) ∧
    (src.width = src.height → res.geom.leftSource = 0 ∧ res.geom.topSource = 0) ∧
    (tgt.width = src.width → tgt.height = src.height →
      res.finalTarget = crop_square tgt res.geom.leftTarget res.geom.topTarget
        ((min tgt.height tgt.width : Nat) : ℤ)) := by
  obtain ⟨hg, hs, ht⟩ := core_ok_inv h
  obtain ⟨theta, horiz, hfS, hfT, hbase, hscaled, hcsS, hcsT⟩ := aug_geometry_ok_char hg
  rw [Prod.mk.injEq] at hbase
  have hb1 : res.geom.baseSource = src := by
    rw [hbase.1]
    simp [lt_irrefl]
  have hb2 : res.geom.baseTarget = tgt := by
    rw [hbase.2]
    simp [lt_irrefl]
  obtain ⟨r2, hcv⟩ := aug_geometry_canvasScale hg
  rw [pyUniform_const] at hcv
  norm_num at hcv
  have hm : res.geom.cropSourceSize = ((min src.height src.width : Nat) : ℤ) := by
    rw [hcsS, hb1, hcv, mul_one, pyInt_natCast]
  have hmt : res.geom.cropTargetSize = ((min tgt.height tgt.width : Nat) : ℤ) := by
    rw [hcsT, hb2, hcv, mul_one, pyInt_natCast]
  have hsc : res.geom.scaledSource = src ∧ res.geom.scaledTarget = tgt := by
    rw [hcv, if_neg (lt_irrefl 1), Prod.mk.injEq] at hscaled
    exact ⟨hscaled.1.trans hb1, hscaled.2.trans hb2⟩
  obtain ⟨hl0, hlw, ht0, hth2⟩ := aug_geometry_ok_bounds hg
  rw [hm, hsc.1] at hlw hth2
  rw [hsc.1, hm] at hs
  have hresS : (crop_square src res.geom.leftSource res.geom.topSource
      ((min src.height src.width : Nat) : ℤ)).resize (min src.height src.width)
      (min src.height src.width) = .ok (crop_square src res.geom.leftSource
        res.geom.topSource ((min src.height src.width : Nat) : ℤ)) :=
    resize_eq_of_dims (by rw [crop_square_width]; exact Int.toNat_natCast _)
      (by rw [crop_square_height]; exact Int.toNat_natCast _)
  rw [hresS] at hs
  injection hs with hfs
  refine ⟨hfs.symm, ?_, ?_, ?_⟩
  · intro x y hx hy
    rw [← hfs]
    show (if 0 ≤ res.geom.leftSource + (x : ℤ) ∧
        res.geom.leftSource + (x : ℤ) < (src.width : ℤ) ∧
        0 ≤ res.geom.topSource + (y : ℤ) ∧
        res.geom.topSource + (y : ℤ) < (src.height : ℤ) then
      src.pixel (res.geom.leftSource + (x : ℤ)).toNat
        (res.geom.topSource + (y : ℤ)).toNat
    else (0, 0, 0)) = src.pixel (x + res.geom.leftSource.toNat)
      (y + res.geom.topSource.toNat)
    rw [if_pos (by omega)]
    have e1 : (res.geom.leftSource + (x : ℤ)).toNat = x + res.geom.leftSource.toNat := by
      omega
    have e2 : (res.geom.topSource + (y : ℤ)).toNat = y + res.geom.topSource.toNat := by
      omega
    rw [e1, e2]
  · intro hsq
    constructor
    · omega
    · omega
  · intro htw hth3
    rw [hsc.2, hmt] at ht
    have hmm : min tgt.height tgt.width = min src.height src.width := by
      rw [htw, hth3]
    have hresT : (crop_square tgt res.geom.leftTarget res.geom.topTarget
        ((min tgt.height tgt.width : Nat) : ℤ)).resize (min src.height src.width)
        (min src.height src.width) = .ok (crop_square tgt res.geom.leftTarget
          res.geom.topTarget ((min tgt.height tgt.width : Nat) : ℤ)) :=
      resize_eq_of_dims
        (by rw [crop_square_width, Int.toNat_natCast]; exact hmm)
        (by rw [crop_square_height, Int.toNat_natCast]; exact hmm)
    rw [hresT] at ht
    injection ht with hft
    exact hft.symm

/-- C5 counterexample: with the no-op configuration (rotation 0, flip off,
scale fixed at 1, output size equal to the square-crop size) on the non-square
3×1 image `img31`, the draw whose integer stream is all zeros places the
square crop at offset 0 — the returned source pixel is the input's pixel 0,
whereas the center-square crop of the same image holds pixel 1, so the
returned image is not the center-square crop. -/
theorem c5_center_crop_counterexample :
    (process_image_pair idRotate streamZero img31 img31 (1, 1) false 0 1 1 false false
        false false false).map (fun p => p.1.pixel 0 0) = .ok (0, 0, 0) ∧
    (center_square_crop img31).pixel 0 0 = (1, 0, 0) ∧
    ((0, 0, 0) : Color) ≠ ((1, 0, 0) : Color) := by
  refine ⟨?_, by decide, by decide⟩
  simp only [process_image_pair, process_image_pair_core, aug_geometry, aug_crop_geometry,
    crop_offsets, select_fill_color, pyUniform, pyChoiceBool, pyRandint, pyFloorDiv,
    pyInt, streamZero, img31, idRotate, crop_square, Img.crop, Img.resize,
    center_on_canvas, apply_random_flip, rotate_image, expand_to_square, except_bind_ok,
    except_bind_err]
  norm_num [except_bind_ok, Except.map]

/-- Witness for the amended C5 at a concrete successful draw. -/
theorem c5_random_offset_square_crop_witness :
    ∃ res, process_image_pair_core idRotate streamZero img31 img31 (1, 1) false 0 1 1
        false false false false false = .ok res ∧
      (res.finalSource = crop_square img31 res.geom.leftSource res.geom.topSource
        ((min img31.height img31.width : Nat) : ℤ) ∧
      (∀ x y, x < min img31.height img31.width → y < min img31.height img31.width →
        res.finalSource.pixel x y =
          img31.pixel (x + res.geom.leftSource.toNat) (y + res.geom.topSource.toNat)) ∧
      (img31.width = img31.height → res.geom.leftSource = 0 ∧ res.geom.topSource = 0) ∧
      (img31.width = img31.width → img31.height = img31.height →
        res.finalTarget = crop_square img31 res.geom.leftTarget res.geom.topTarget
          ((min img31.height img31.width : Nat) : ℤ))) := by
  obtain ⟨res, hres⟩ := sample_core_run
  exact ⟨res, hres, c5_random_offset_square_crop idRotate streamZero img31 img31
    false false false false res hres⟩

/-- C6 counterexample: at DoG value 245 the implementation's binarization with
the entry-point threshold 16 yields white (2·(255−245) = 20 exceeds 16),
whereas the claimed doubled-threshold rule (20 against 32) yields black — so
the pixel rule "white exactly where 2·(255−dog) exceeds the doubled threshold
32" is false of the code. -/
theorem c6_doubled_threshold_counterexample :
    convert_thr_a = 16 ∧ xdog_threshold convert_thr_a 245 = 255 ∧
    spec_binarize_doubled convert_thr_a 245 = 0 ∧ (255 : Nat) ≠ 0 := by
  exact ⟨rfl, by decide, by decide, by decide⟩

/-- C6 (amended): the sketch-conversion entry point calls the XDoG filter with
working resolution 2048 and threshold `thr_a = 16`, and the threshold is used
as-is, not doubled: a pixel of the scribble output is white (255 on all three
channels) exactly where the uint8 product `2 * (255 − dogValue)` — computed
modulo 256, since numpy evaluates it in uint8 — exceeds the threshold, and
black (0) otherwise. -/
theorem c6_threshold_used_directly :
    convert_res = 2048 ∧ convert_thr_a = 16 ∧
    (∀ (P : SketchPrims) (img : Img) (res thr_a x y : Nat),
      (scribble_xdog P img res thr_a).pixel x y =
        (xdog_threshold thr_a (xdog_dog P (resize_image_with_pad P img res).1 x y),
         xdog_threshold thr_a (xdog_dog P (resize_image_with_pad P img res).1 x y),
         xdog_threshold thr_a (xdog_dog P (resize_image_with_pad P img res).1 x y))) ∧
    (∀ thr_a dogv, xdog_threshold thr_a dogv =
      if 2 * (255 - dogv) % 256 > thr_a then 255 else 0) ∧
    (∀ (P : SketchPrims) (image : Img),
      convert_pil_to_sketch P image = do
        let resized ← (scribble_xdog P image 2048 16).resize image.width image.height
        Except.ok (invert255 (rgb2bgr resized))) := by
  exact ⟨rfl, rfl, fun P img res thr_a x y => rfl, fun thr_a dogv => rfl,
    fun P image => rfl⟩

theorem npRound_ge_one {q : ℚ} (h1 : 1 ≤ q) : 1 ≤ npRound q := by
  have hf : (1 : ℤ) ≤ ⌊q⌋ := by
    rw [Int.le_floor]
    exact_mod_cast h1
  unfold npRound
  split
  · exact hf
  · split
    · omega
    · split
      · exact hf
      · omega

theorem resize_const_pixel {img : Img} {w h : Nat} {c : Color}
    (hc : ∀ x y, img.pixel x y = c) (hw0 : 0 < w) (hh0 : 0 < h)
    (hiw : 0 < img.width) (hih : 0 < img.height) :
    ∃ o, img.resize w h = .ok o ∧ o.width = w ∧ o.height = h ∧
      ∀ x y, o.pixel x y = c := by
  unfold Img.resize
  split
  · next hd => exact ⟨img, rfl, hd.1, hd.2, hc⟩
  · split
    · next hlt => omega
    · split
      · next hz => omega
      · exact ⟨_, rfl, rfl, rfl, fun x y => hc _ _⟩

theorem Img.new_width (w h : Nat) (c : Color) : (Img.new w h c).width = w := rfl

theorem Img.new_height (w h : Nat) (c : Color) : (Img.new w h c).height = h := rfl

/-- C8: on a solid-color input (every pixel equal) the sketch pipeline
produces an all-white output of the input dimensions: the two Gaussian blurs
of a constant image are that constant, so the difference-of-Gaussians response
is uniformly zero, no pixel passes the binarization threshold, and the final
polarity inversion yields 255 at every pixel.  The two hypotheses state the
constant-preservation property of the `cv2.resize` and `cv2.GaussianBlur`
primitives (their kernels are normalized). -/
theorem c8_solid_input_all_white (P : SketchPrims) (w h r g b : Nat)
    (hres : ∀ (img : Img) (tw th : Nat) (i : Bool) (x y : Nat) (c : Color),
      (∀ a2 b2, img.pixel a2 b2 = c) → P.cvResizeContent img tw th i x y = c)
    (hblur : ∀ (fq : QImg) (s : ℚ) (x y : Nat) (c : ℚ × ℚ × ℚ),
      (∀ a2 b2, fq.pixel a2 b2 = c) → P.gaussBlurContent fq s x y = c)
    (hw : 0 < w) (hh : 0 < h) :
    ∀ x y, (convert_pil_to_sketch P (Img.new w h (r, g, b))).map
        (fun o => (o.width, o.height, o.pixel x y)) = .ok (w, h, (255, 255, 255)) := by
  intro x y
  have hpad : ∀ a2 b2,
      ((resize_image_with_pad P (Img.new w h (r, g, b)) 2048).1).pixel a2 b2 =
        (r, g, b) :=
    fun a2 b2 => hres _ _ _ _ _ _ _ (fun _ _ => rfl)
  have hq : ∀ a2 b2,
      ((resize_image_with_pad P (Img.new w h (r, g, b)) 2048).1).toQ.pixel a2 b2 =
        ((r : ℚ), (g : ℚ), (b : ℚ)) := by
    intro a2 b2
    simp only [Img.toQ]
    rw [hpad a2 b2]
  have hdog : ∀ a2 b2,
      xdog_dog P ((resize_image_with_pad P (Img.new w h (r, g, b)) 2048).1) a2 b2 =
        255 := by
    intro a2 b2
    simp only [xdog_dog]
    rw [hblur _ _ a2 b2 _ hq, hblur _ _ a2 b2 _ hq]
    norm_num [clipToUint8]
    decide
  have hsketch : ∀ a2 b2,
      (scribble_xdog P (Img.new w h (r, g, b)) 2048 16).pixel a2 b2 = (0, 0, 0) := by
    intro a2 b2
    simp only [scribble_xdog]
    rw [hdog a2 b2]
    decide
  have hmin1 : (1 : ℚ) ≤ ((min h w : Nat) : ℚ) := by
    have : 1 ≤ min h w := by omega
    exact_mod_cast this
  have hq1 : (1 : ℚ) ≤ (w : ℚ) * ((2048 : ℚ) / ((min h w : Nat) : ℚ)) := by
    have hm0 : (0 : ℚ) < ((min h w : Nat) : ℚ) := by linarith
    have hmw : ((min h w : Nat) : ℚ) ≤ (w : ℚ) := by
      have : min h w ≤ w := Nat.min_le_right h w
      exact_mod_cast this
    have hdiv : (1 : ℚ) ≤ (w : ℚ) / ((min h w : Nat) : ℚ) :=
      (one_le_div hm0).mpr hmw
    have : (w : ℚ) * ((2048 : ℚ) / ((min h w : Nat) : ℚ)) =
        2048 * ((w : ℚ) / ((min h w : Nat) : ℚ)) := by ring
    rw [this]
    nlinarith
  have hq2 : (1 : ℚ) ≤ (h : ℚ) * ((2048 : ℚ) / ((min h w : Nat) : ℚ)) := by
    have hm0 : (0 : ℚ) < ((min h w : Nat) : ℚ) := by linarith
    have hmw : ((min h w : Nat) : ℚ) ≤ (h : ℚ) := by
      have : min h w ≤ h := Nat.min_le_left h w
      exact_mod_cast this
    have hdiv : (1 : ℚ) ≤ (h : ℚ) / ((min h w : Nat) : ℚ) :=
      (one_le_div hm0).mpr hmw
    have : (h : ℚ) * ((2048 : ℚ) / ((min h w : Nat) : ℚ)) =
        2048 * ((h : ℚ) / ((min h w : Nat) : ℚ)) := by ring
    rw [this]
    nlinarith
  have hWt : 0 < (scribble_xdog P (Img.new w h (r, g, b)) 2048 16).width := by
    show 0 < (npRound ((w : ℚ) * ((2048 : ℚ) / ((min h w : Nat) : ℚ)))).toNat
    have := npRound_ge_one hq1
    omega
  have hHt : 0 < (scribble_xdog P (Img.new w h (r, g, b)) 2048 16).height := by
    show 0 < (npRound ((h : ℚ) * ((2048 : ℚ) / ((min h w : Nat) : ℚ)))).toNat
    have := npRound_ge_one hq2
    omega
  obtain ⟨o, hoeq, how, hoh, hopix⟩ :=
    @resize_const_pixel (scribble_xdog P (Img.new w h (r, g, b)) 2048 16)
      w h _ hsketch hw hh hWt hHt
  simp only [convert_pil_to_sketch, convert_res, convert_thr_a, Img.new_width,
    Img.new_height]
  rw [hoeq]
  simp only [except_bind_ok, Except.map]
  have hbgr : (rgb2bgr o).pixel x y = (0, 0, 0) := by
    simp [rgb2bgr, hopix]
  have hinv : (invert255 (rgb2bgr o)).pixel x y = (255, 255, 255) := by
    simp [invert255, hbgr]
  rw [show (invert255 (rgb2bgr o)).width = w from how]
  rw [show (invert255 (rgb2bgr o)).height = h from hoh]
  rw [hinv]

/-- Witness for C8 at concrete primitives and a concrete solid image. -/
theorem c8_solid_input_all_white_witness :
    (convert_pil_to_sketch samplePrims (Img.new 1 1 (5, 5, 5))).map
      (fun o => (o.width, o.height, o.pixel 0 0)) = .ok (1, 1, (255, 255, 255)) :=
  c8_solid_input_all_white samplePrims 1 1 5 5 5
    (fun img tw th i x y c hcon => hcon _ _)
    (fun fq s x y c hcon => hcon _ _)
    (by decide) (by decide) 0 0

/-- A zero-width (zero-area) target image. -/
def tgt0x5 : Img :=
  ⟨0, 5, fun _ _ => (9, 9, 9)⟩

/-- Modelled behaviour of `PIL.Image.rotate(angle, expand=True, fillcolor)` on
the inputs of the C9 run below, at the sampled angle 30°: rotating the empty
0×5 strip expands the canvas to the rotated bounding box (about 2×4, by
`|w·cos| + |h·sin|`), and every output pixel samples outside the empty source,
so the result is a non-empty canvas filled entirely with the fill color;
rotating a non-empty image yields a non-empty image (its exact content is
irrelevant below, so the input is returned). -/
def rotateEmptyToCanvas : AugPrims :=
  ⟨fun img _ fill => if img.width = 0 then ⟨2, 4, fun _ _ => fill⟩ else img⟩

/-- A deterministic random stream whose float draws are all 30 (so the sampled
rotation angle within range 40 is the non-right angle 30°). -/
def streamThirty : RandState :=
  ⟨fun _ => 30, fun _ => true, fun _ => 0, 0, 0, 0⟩

/-- C9 (bug evidence): a zero-area target image does not always make
`process_image_pair` fail.  With a rotation drawn (range 40, sampled angle
30°), PIL rotation turns the empty target into a non-empty fill-colored
canvas and the call returns an (source, garbage target) image pair; the very
same input fails with a `ValueError` from resizing an empty crop only when
rotation is disabled.  (A zero-area source, by contrast, always raises — a
`ZeroDivisionError` at the target-offset rescaling.) -/
theorem c9_zero_area_returns_pair :
    (∃ s t, process_image_pair rotateEmptyToCanvas streamThirty img22 tgt0x5 (8, 8)
      false 40 1 1 false false false false false = .ok (s, t)) ∧
    process_image_pair rotateEmptyToCanvas streamThirty img22 tgt0x5 (8, 8)
      false 0 1 1 false false false false false = .error "box cannot be empty" := by
  constructor
  · simp only [process_image_pair, process_image_pair_core, aug_geometry,
      aug_crop_geometry, crop_offsets, select_fill_color, pyUniform, pyChoiceBool,
      pyRandint, pyFloorDiv, pyInt, streamThirty, img22, tgt0x5, rotateEmptyToCanvas,
      crop_square, Img.crop, Img.resize, center_on_canvas, apply_random_flip,
      rotate_image, expand_to_square, except_bind_ok, except_bind_err]
    norm_num [except_bind_ok, Except.map, Int.toNat_ofNat]
    exact ⟨_, _, rfl⟩
  · simp only [process_image_pair, process_image_pair_core, aug_geometry,
      aug_crop_geometry, crop_offsets, select_fill_color, pyUniform, pyChoiceBool,
      pyRandint, pyFloorDiv, pyInt, streamThirty, img22, tgt0x5, rotateEmptyToCanvas,
      crop_square, Img.crop, Img.resize, center_on_canvas, apply_random_flip,
      rotate_image, expand_to_square, except_bind_ok, except_bind_err]
    norm_num [except_bind_ok, Except.map, Int.toNat_ofNat]
    rfl
